import Mathlib

/-!
# Verification of the clima-app weather screen

Shallow embedding of the data transformations and state handlers in
`src/app/(tabs)/index.tsx` of the Criscatec/clima-app repository.

Conventions of the embedding:
* JavaScript numbers holding temperatures, wind speeds and coordinates are
  modelled as rationals (`ℚ`); Unix timestamps (`dt`, seconds) as `ℕ`.
* `Math.round` is `jsRound` (round half toward positive infinity, the
  ECMAScript definition), `Math.min`/`Math.max` are `min`/`max` on `ℚ`.
* `new Date(dt * 1000).toDateString()` identifies the local calendar day of a
  timestamp; for a fixed local UTC offset `tz` (in seconds) two timestamps get
  the same date string exactly when `(dt + tz) / 86400` agrees, so the day key
  is modelled as that quotient.  All definitions are parametrised by `tz`.
* The insertion-ordered JavaScript object `byDay` is an association list that
  preserves first-insertion order of keys; `Array.prototype.sort` with the
  comparator `(a, b) => a.dt - b.dt` is a stable sort by `dt`, modelled with
  `List.insertionSort`.
* The React `useState` cells form one record `AppState`; each async handler is
  a function from an environment (the outside world's answers: permission,
  position, HTTP responses) and a pre-state to a post-state plus the list of
  externally visible effects it performs, in order.
-/

/-- Model of `Coords`: a coordinate pair (`{ lat, lon }`). -/
structure Coords where
  lat : ℚ
  lon : ℚ
deriving DecidableEq

/-- One element of the `weather` array of an OpenWeather payload. -/
structure WeatherCond where
  main : String
  description : String
deriving DecidableEq

/-- The `main` field of a forecast sample (`{ temp_min, temp_max }`). -/
structure MainTemps where
  temp_min : ℚ
  temp_max : ℚ
deriving DecidableEq

/-- Model of `ForecastAPIItem`: one 3-hour forecast sample as delivered by the API. -/
structure ForecastAPIItem where
  dt : ℕ
  main : MainTemps
  weather : List WeatherCond
deriving DecidableEq

/-- The `main` field of the current-conditions payload. -/
structure CurrentMain where
  temp : ℚ
  feels_like : ℚ
  humidity : ℚ
  pressure : ℚ
deriving DecidableEq

/-- The `wind` field of the current-conditions payload. -/
structure Wind where
  speed : ℚ
deriving DecidableEq

/-- Model of `WeatherData`: the current-conditions payload (fields the app uses). -/
structure WeatherData where
  coord : Coords
  weather : List WeatherCond
  main : CurrentMain
  visibility : ℚ
  wind : Wind
  name : String
deriving DecidableEq

/-- Model of `ForecastItem`: one compacted per-day entry produced by `compactForecast`. -/
structure ForecastItem where
  dt : ℕ
  main : String
  desc : String
  temp_min : ℚ
  temp_max : ℚ
deriving DecidableEq

/-- One entry of the `datasets` array of `HourlyData`. -/
structure Dataset where
  data : List ℤ
deriving DecidableEq

/-- Model of `HourlyData`: the chart input built by `processHourlyForecast`. -/
structure HourlyData where
  labels : List String
  datasets : List Dataset
  icons : List String
deriving DecidableEq

/-- ECMAScript `Math.round`: round half toward positive infinity. -/
def jsRound (x : ℚ) : ℤ := ⌊x + 1 / 2⌋

/-- The local calendar day of a Unix timestamp, for a fixed local offset of
`tz` seconds: two timestamps render to the same `toDateString()` exactly when
this quotient agrees. -/
def dayKey (tz : ℕ) (dt : ℕ) : ℕ := (dt + tz) / 86400

/-- The local hour of a Unix timestamp (`Date.prototype.getHours`). -/
def jsHours (tz : ℕ) (dt : ℕ) : ℕ := (dt + tz) / 3600 % 24

/-- ECMAScript `String(x)` applied to a possibly-`undefined` string. -/
def jsString : Option String → String
  | none => "undefined"
  | some s => s

/-- The static icon map inside `getWeatherIcon`. -/
def iconMap : List (String × String) :=
  [("Clear", "sunny"), ("Clouds", "cloudy"), ("Rain", "rainy"),
   ("Snow", "snow"), ("Thunderstorm", "thunderstorm"),
   ("Drizzle", "rainy-outline"), ("Mist", "cloudy-outline"),
   ("Smoke", "cloudy-outline"), ("Haze", "cloudy-outline"),
   ("Dust", "cloudy-outline"), ("Fog", "cloudy-outline"),
   ("Sand", "cloudy-outline"), ("Ash", "cloudy-outline"),
   ("Squall", "rainy-outline"), ("Tornado", "thunderstorm")]

/-- Embedding of `getWeatherIcon`: map lookup on `String(weatherMain)` with the
`'partly-sunny'` fallback (`map[String(weatherMain)] || 'partly-sunny'`). -/
def getWeatherIcon (weatherMain : Option String) : String :=
  (iconMap.lookup (jsString weatherMain)).getD "partly-sunny"

/-- The static background-image map inside `getWeatherImage` (each value is
the `uri` of the `{ uri }` record). -/
def imageMap : List (String × String) :=
  [("Clear", "https://images.unsplash.com/photo-1541119638723-c51cbe2262aa?q=80&w=2070&auto=format&fit=crop"),
   ("Clouds", "https://images.unsplash.com/photo-1501630834273-4b5604d2ee31?q=80&w=2070&auto=format&fit=crop"),
   ("Rain", "https://images.unsplash.com/photo-1515694346937-94d85e41e622?q=80&w=1974&auto=format&fit=crop"),
   ("Snow", "https://images.unsplash.com/photo-1491002052546-bf38f186af56?q=80&w=2070&auto=format&fit=crop"),
   ("Thunderstorm", "https://images.unsplash.com/photo-1605727226424-ad25e2d00e69?q=80&w=1974&auto=format&fit=crop"),
   ("Drizzle", "https://images.unsplash.com/photo-1556485671-85b8a7f0e4a7?q=80&w=1974&auto=format&fit=crop"),
   ("Mist", "https://images.unsplash.com/photo-1485236715568-ddc5ee6ca227?q=80&w=1974&auto=format&fit=crop")]

/-- The default background image of `getWeatherImage`. -/
def defaultImageUri : String :=
  "https://images.unsplash.com/photo-1614483433234-5a715a4c4b32?q=80&w=1974&auto=format&fit=crop"

/-- Embedding of `getWeatherImage`: map lookup on `String(weatherMain)` with the default
image fallback. -/
def getWeatherImage (weatherMain : Option String) : String :=
  (imageMap.lookup (jsString weatherMain)).getD defaultImageUri

/-- The per-day accumulator record stored in `byDay[dayKey]`. -/
structure DayBucket where
  dt : ℕ
  temp_min : ℚ
  temp_max : ℚ
  weather : Option WeatherCond
deriving DecidableEq

/-- The bucket created when a day is seen for the first time
(`{ dt, temp_min, temp_max, weather: item.weather[0] }`). -/
def initBucket (it : ForecastAPIItem) : DayBucket :=
  { dt := it.dt
    temp_min := it.main.temp_min
    temp_max := it.main.temp_max
    weather := it.weather.head? }

/-- Folding one further sample of the same day into a bucket
(`Math.min` on `temp_min`, `Math.max` on `temp_max`). -/
def mergeBucket (b : DayBucket) (it : ForecastAPIItem) : DayBucket :=
  { b with
    temp_min := min b.temp_min it.main.temp_min
    temp_max := max b.temp_max it.main.temp_max }

/-- One step of the `list.forEach` loop of `compactForecast`: update the
insertion-ordered association list `byDay` at key `dayKey tz it.dt`. -/
def upsertDay (tz : ℕ) (m : List (ℕ × DayBucket)) (it : ForecastAPIItem) :
    List (ℕ × DayBucket) :=
  match m with
  | [] => [(dayKey tz it.dt, initBucket it)]
  | (k, b) :: rest =>
    if k = dayKey tz it.dt then (k, mergeBucket b it) :: rest
    else (k, b) :: upsertDay tz rest it

/-- The `byDay` object after the whole `forEach` loop, as an association list
in key-insertion order (JavaScript objects enumerate non-numeric string keys
in insertion order). -/
def byDay (tz : ℕ) (list : List ForecastAPIItem) : List (ℕ × DayBucket) :=
  list.foldl (upsertDay tz) []

/-- The comparator `(a, b) => a.dt - b.dt` as an ordering on buckets. -/
def dtLE (a b : DayBucket) : Prop := a.dt ≤ b.dt

instance : DecidableRel dtLE := fun a b => Nat.decLe a.dt b.dt

instance : IsTotal DayBucket dtLE := ⟨fun a b => Nat.le_total a.dt b.dt⟩

instance : IsTrans DayBucket dtLE := ⟨fun _ _ _ => Nat.le_trans⟩

/-- The final `.map` of `compactForecast`: project a bucket to a
`ForecastItem` (`it.weather?.main ?? ''`, `it.weather?.description ?? ''`). -/
def bucketToItem (b : DayBucket) : ForecastItem :=
  { dt := b.dt
    main := (b.weather.map WeatherCond.main).getD ""
    desc := (b.weather.map WeatherCond.description).getD ""
    temp_min := b.temp_min
    temp_max := b.temp_max }

/-- Embedding of `compactForecast`: group samples by calendar day, sort the buckets by
`dt`, keep the first five, and project each to a `ForecastItem`. -/
def compactForecast (tz : ℕ) (list : List ForecastAPIItem) : List ForecastItem :=
  ((List.insertionSort dtLE ((byDay tz list).map Prod.snd)).take 5).map bucketToItem

/-- The time label of one hourly sample (`` `${dt.getHours()}:00` ``). -/
def hourLabel (tz : ℕ) (dt : ℕ) : String := toString (jsHours tz dt) ++ ":00"

/-- Embedding of `processHourlyForecast`: `null` for an empty list, slice the first eight
samples, `null` when fewer than two remain, otherwise build labels, rounded
`temp_max` values and condition icons. -/
def processHourlyForecast (tz : ℕ) (list : List ForecastAPIItem) :
    Option HourlyData :=
  if list.length = 0 then none
  else
    let next24h := list.take 8
    if next24h.length < 2 then none
    else
      some
        { labels := next24h.map fun it => hourLabel tz it.dt
          datasets := [⟨next24h.map fun it => jsRound it.main.temp_max⟩]
          icons := next24h.map fun it =>
            getWeatherIcon (it.weather.head?.map WeatherCond.main) }

/-- Embedding of `displayTemp`: Celsius-to-Fahrenheit conversion in imperial mode, then
`Math.round`. -/
def displayTemp (units : String) (temp : ℚ) : ℤ :=
  jsRound (if units = "imperial" then temp * 9 / 5 + 32 else temp)

/-- ECMAScript `Number.prototype.toFixed(1)`, as a rational: the multiple of
`1/10` closest to `x`, the larger one on ties. -/
def jsToFixed1 (x : ℚ) : ℚ := (⌊x * 10 + 1 / 2⌋ : ℚ) / 10

/-- Embedding of `displaySpeed`: metres/second to miles/hour in imperial mode, then
`toFixed(1)`. -/
def displaySpeed (units : String) (speed : ℚ) : ℚ :=
  jsToFixed1 (if units = "imperial" then speed * 2237 / 1000 else speed)

/-- ECMAScript `String.prototype.trim` on the character list of a string. -/
def jsTrimList (s : List Char) : List Char :=
  ((s.dropWhile Char.isWhitespace).reverse.dropWhile Char.isWhitespace).reverse

/-- Embedding of `query.trim()`. -/
def jsTrim (s : String) : String := ⟨jsTrimList s.data⟩

/-- The `useState` cells of `WeatherScreen`, as one record. -/
structure AppState where
  loading : Bool
  refreshing : Bool
  error : Option String
  theme : String
  units : String
  query : String
  coords : Option Coords
  cityLabel : String
  current : Option WeatherData
  forecast : List ForecastItem
  hourlyForecast : Option HourlyData
deriving DecidableEq

/-- The externally visible actions a handler can perform, in program order. -/
inductive Effect where
  | requestPermission
  | getCurrentPosition
  | dismissKeyboard
  | fetchCurrentByCoords (lat lon : ℚ) (units : String)
  | fetchCurrentByQuery (q : String) (units : String)
  | fetchForecast (lat lon : ℚ) (units : String)
deriving DecidableEq

/-- Whether an effect is an HTTP fetch. -/
def Effect.isFetch : Effect → Bool
  | .fetchCurrentByCoords _ _ _ => true
  | .fetchCurrentByQuery _ _ => true
  | .fetchForecast _ _ _ => true
  | _ => false

/-- The `units` query parameter carried by a fetch effect. -/
def Effect.unitsOf : Effect → Option String
  | .fetchCurrentByCoords _ _ u => some u
  | .fetchCurrentByQuery _ u => some u
  | .fetchForecast _ _ u => some u
  | _ => none

/-- Outcome of one `fetch` + `res.json()` round trip: either the promise
chain rejects (network or parse failure), or a response arrives with its
`ok` flag and parsed body. -/
inductive FetchResult (α : Type) where
  | netErr
  | resp (ok : Bool) (body : α)
deriving DecidableEq

/-- The forecast payload: `fData?.list || []` (fields the app uses). -/
structure ForecastBody where
  list : List ForecastAPIItem
deriving DecidableEq

/-- The outside world's answers during one handler run: whether the API key
is configured (`canFetch`), the permission grant, the device position
(`none` models `getCurrentPositionAsync` throwing), and the two HTTP
results. -/
structure Env where
  apiKey : Bool
  permissionGranted : Bool
  position : Option Coords
  currentRes : FetchResult WeatherData
  forecastRes : FetchResult ForecastBody
deriving DecidableEq

/-- The fixed error messages set by the handlers. -/
def msgPermission : String := "Permiso de ubicación denegado"

/-- Message set when `getCurrentPositionAsync` fails. -/
def msgLocation : String := "No se pudo obtener la ubicación actual"

/-- Message set by `fetchAll` when the API key is missing. -/
def msgMissingKey : String := "Falta la API Key (EXPO_PUBLIC_OPENWEATHER_API_KEY)."

/-- Message set by the catch-all of `fetchAll`. -/
def msgFetchAll : String := "Error al obtener datos del clima. Revisa conexión o API key."

/-- Message set by the catch-all of `searchByCity`. -/
def msgCity : String := "No se encontró la ciudad. Intenta con otro nombre."

/-- Embedding of `fetchAll`: early-return on a missing API key, otherwise two parallel
fetches (both URLs carry `units=metric`), any failure collapsing to one
error message, success storing the payloads. -/
def fetchAll (tz : ℕ) (env : Env) (c : Coords) (s : AppState) :
    AppState × List Effect :=
  if env.apiKey = false then
    ({ s with error := some msgMissingKey }, [])
  else
    let effs := [Effect.fetchCurrentByCoords c.lat c.lon "metric",
                 Effect.fetchForecast c.lat c.lon "metric"]
    match env.currentRes, env.forecastRes with
    | .netErr, _ => ({ s with error := some msgFetchAll }, effs)
    | _, .netErr => ({ s with error := some msgFetchAll }, effs)
    | .resp cok cData, .resp fok fData =>
      if cok = false then ({ s with error := some msgFetchAll }, effs)
      else if fok = false then ({ s with error := some msgFetchAll }, effs)
      else
        ({ s with
            current := some cData
            cityLabel := cData.name
            forecast := compactForecast tz fData.list
            hourlyForecast := processHourlyForecast tz fData.list }, effs)

/-- Embedding of `initByGeolocation`: clear the error, request the permission, read the
position, then delegate to `fetchAll`; the `finally` clears `loading`. -/
def initByGeolocation (tz : ℕ) (env : Env) (s : AppState) :
    AppState × List Effect :=
  let s0 := { s with error := none, loading := true }
  if env.permissionGranted = false then
    ({ s0 with error := some msgPermission, loading := false },
     [Effect.requestPermission])
  else
    match env.position with
    | none =>
      ({ s0 with error := some msgLocation, loading := false },
       [Effect.requestPermission, Effect.getCurrentPosition])
    | some c =>
      let s1 := { s0 with coords := some c }
      let r := fetchAll tz env c s1
      ({ r.1 with loading := false },
       Effect.requestPermission :: Effect.getCurrentPosition :: r.2)

/-- Embedding of `searchByCity`: return at once on a blank query; otherwise fetch the
current conditions by city name, then the forecast at the returned
coordinates, any failure collapsing to one error message. -/
def searchByCity (tz : ℕ) (env : Env) (s : AppState) :
    AppState × List Effect :=
  if jsTrim s.query = "" then (s, [])
  else
    let s0 := { s with error := none, loading := true }
    let e1 := Effect.fetchCurrentByQuery s.query "metric"
    match env.currentRes with
    | .netErr =>
      ({ s0 with error := some msgCity, loading := false },
       [Effect.dismissKeyboard, e1])
    | .resp cok cData =>
      if cok = false then
        ({ s0 with error := some msgCity, loading := false },
         [Effect.dismissKeyboard, e1])
      else
        let s1 := { s0 with
                    coords := none
                    current := some cData
                    cityLabel := cData.name }
        let e2 := Effect.fetchForecast cData.coord.lat cData.coord.lon "metric"
        match env.forecastRes with
        | .netErr =>
          ({ s1 with error := some msgCity, loading := false },
           [Effect.dismissKeyboard, e1, e2])
        | .resp fok fData =>
          if fok = false then
            ({ s1 with error := some msgCity, loading := false },
             [Effect.dismissKeyboard, e1, e2])
          else
            ({ s1 with
                forecast := compactForecast tz fData.list
                hourlyForecast := processHourlyForecast tz fData.list
                loading := false },
             [Effect.dismissKeyboard, e1, e2])

/-- Embedding of `toggleUnits`: flip the `units` cell; nothing else happens. -/
def toggleUnits (s : AppState) : AppState × List Effect :=
  ({ s with units := if s.units = "metric" then "imperial" else "metric" }, [])

/-- The action wired to the button of the error screen
(`onPress={initByGeolocation}`). -/
inductive RetryAction where
  | retryGeolocation
deriving DecidableEq

/-- The three top-level render branches of `WeatherScreen`. -/
inductive Screen where
  | loadingView
  | errorView (msg : String) (retry : RetryAction)
  | mainView
deriving DecidableEq

/-- The top-level render: the loading screen, else the single error screen
with its retry button, else the main screen. -/
def render (s : AppState) : Screen :=
  if s.loading then Screen.loadingView
  else
    match s.error with
    | some m => Screen.errorView m RetryAction.retryGeolocation
    | none => Screen.mainView

/-- A handler run ended on the error screen: some message is stored, the
spinner is off, the render shows that single message with the
relocate-and-retry button, and no external action was attempted twice. -/
def ErrorOutcome (p : AppState × List Effect) : Prop :=
  ∃ m, p.1.error = some m ∧ p.1.loading = false ∧
    render p.1 = Screen.errorView m RetryAction.retryGeolocation ∧
    p.2.Nodup

/-- Lookup in the insertion-ordered association list. -/
def lookupDay (k : ℕ) : List (ℕ × DayBucket) → Option DayBucket
  | [] => none
  | (j, b) :: rest => if j = k then some b else lookupDay k rest

/-- The samples of `l` falling on calendar day `k`, in input order. -/
def samplesOn (tz k : ℕ) (l : List ForecastAPIItem) : List ForecastAPIItem :=
  l.filter fun it => dayKey tz it.dt == k

/-- Folding a run of further same-day samples into a bucket. -/
def foldBucket (b : DayBucket) (l : List ForecastAPIItem) : DayBucket :=
  l.foldl mergeBucket b

/-- Extending an optional bucket by a run of same-day samples: the first
sample creates the bucket, later ones are merged. -/
def extendGroup (o : Option DayBucket) (l : List ForecastAPIItem) :
    Option DayBucket :=
  match o, l with
  | some b, l => some (foldBucket b l)
  | none, [] => none
  | none, x :: xs => some (foldBucket (initBucket x) xs)

theorem lookupDay_upsertDay_self_none (tz : ℕ) (it : ForecastAPIItem)
    (m : List (ℕ × DayBucket)) (h : lookupDay (dayKey tz it.dt) m = none) :
    lookupDay (dayKey tz it.dt) (upsertDay tz m it) = some (initBucket it) := by
  induction m with
  | nil => simp [upsertDay, lookupDay]
  | cons p rest ih =>
    obtain ⟨j, b⟩ := p
    by_cases hj : j = dayKey tz it.dt
    · simp [lookupDay, hj] at h
    · simp [upsertDay, lookupDay, hj] at h ⊢
      exact ih h

theorem lookupDay_upsertDay_self_some (tz : ℕ) (it : ForecastAPIItem)
    (m : List (ℕ × DayBucket)) (b : DayBucket)
    (h : lookupDay (dayKey tz it.dt) m = some b) :
    lookupDay (dayKey tz it.dt) (upsertDay tz m it) =
      some (mergeBucket b it) := by
  induction m with
  | nil => simp [lookupDay] at h
  | cons p rest ih =>
    obtain ⟨j, b'⟩ := p
    by_cases hj : j = dayKey tz it.dt
    · simp [lookupDay, hj] at h
      simp [upsertDay, lookupDay, hj, h]
    · simp [upsertDay, lookupDay, hj] at h ⊢
      exact ih h

theorem lookupDay_upsertDay_ne (tz : ℕ) (it : ForecastAPIItem)
    (m : List (ℕ × DayBucket)) (k : ℕ) (h : k ≠ dayKey tz it.dt) :
    lookupDay k (upsertDay tz m it) = lookupDay k m := by
  induction m with
  | nil => simp [upsertDay, lookupDay, Ne.symm h]
  | cons p rest ih =>
    obtain ⟨j, b⟩ := p
    by_cases hj : j = dayKey tz it.dt
    · subst hj
      simp [upsertDay, lookupDay, Ne.symm h]
    · by_cases hjk : j = k <;> simp [upsertDay, lookupDay, hj, hjk, ih, h]

theorem samplesOn_cons_self (tz : ℕ) (it : ForecastAPIItem)
    (l : List ForecastAPIItem) :
    samplesOn tz (dayKey tz it.dt) (it :: l) =
      it :: samplesOn tz (dayKey tz it.dt) l := by
  simp [samplesOn]

theorem samplesOn_cons_ne (tz k : ℕ) (it : ForecastAPIItem)
    (l : List ForecastAPIItem) (h : dayKey tz it.dt ≠ k) :
    samplesOn tz k (it :: l) = samplesOn tz k l := by
  simp [samplesOn, List.filter_cons, h]

theorem lookupDay_foldl_upsertDay (tz : ℕ) (l : List ForecastAPIItem) :
    ∀ (m : List (ℕ × DayBucket)) (k : ℕ),
      lookupDay k (l.foldl (upsertDay tz) m) =
        extendGroup (lookupDay k m) (samplesOn tz k l) := by
  induction l with
  | nil =>
    intro m k
    cases h : lookupDay k m <;> simp [h, extendGroup, foldBucket, samplesOn]
  | cons it rest ih =>
    intro m k
    rw [List.foldl_cons, ih]
    by_cases hd : dayKey tz it.dt = k
    · subst hd
      rw [samplesOn_cons_self]
      cases hm : lookupDay (dayKey tz it.dt) m with
      | none =>
        rw [lookupDay_upsertDay_self_none tz it m hm]
        simp [extendGroup]
      | some b =>
        rw [lookupDay_upsertDay_self_some tz it m b hm]
        simp [extendGroup, foldBucket]
    · rw [lookupDay_upsertDay_ne tz it m k (fun hc => hd hc.symm),
        samplesOn_cons_ne tz k it rest hd]

theorem lookupDay_byDay (tz : ℕ) (l : List ForecastAPIItem) (k : ℕ) :
    lookupDay k (byDay tz l) = extendGroup none (samplesOn tz k l) := by
  rw [byDay, lookupDay_foldl_upsertDay]
  rfl

theorem lookupDay_eq_none_iff (k : ℕ) (m : List (ℕ × DayBucket)) :
    lookupDay k m = none ↔ k ∉ m.map Prod.fst := by
  induction m with
  | nil => simp [lookupDay]
  | cons p rest ih =>
    obtain ⟨j, b⟩ := p
    by_cases hj : j = k
    · simp [lookupDay, hj]
    · simp only [lookupDay, if_neg hj, List.map_cons, List.mem_cons, ih]
      constructor
      · intro hk
        exact fun hor => hor.elim (fun h1 => hj h1.symm) hk
      · intro hk h2
        exact hk (Or.inr h2)

theorem keys_upsertDay (tz : ℕ) (it : ForecastAPIItem)
    (m : List (ℕ × DayBucket)) :
    (upsertDay tz m it).map Prod.fst =
      if dayKey tz it.dt ∈ m.map Prod.fst then m.map Prod.fst
      else m.map Prod.fst ++ [dayKey tz it.dt] := by
  induction m with
  | nil => simp [upsertDay]
  | cons p rest ih =>
    obtain ⟨j, b⟩ := p
    by_cases hj : j = dayKey tz it.dt
    · simp [upsertDay, hj]
    · have : dayKey tz it.dt ≠ j := fun hc => hj hc.symm
      by_cases hmem : dayKey tz it.dt ∈ rest.map Prod.fst <;>
        simp [upsertDay, hj, ih, hmem, this]

theorem nodup_keys_upsertDay (tz : ℕ) (it : ForecastAPIItem)
    (m : List (ℕ × DayBucket)) (h : (m.map Prod.fst).Nodup) :
    ((upsertDay tz m it).map Prod.fst).Nodup := by
  rw [keys_upsertDay]
  by_cases hmem : dayKey tz it.dt ∈ m.map Prod.fst
  · simpa [hmem] using h
  · simp only [hmem, if_false]
    refine List.Nodup.append h (List.nodup_singleton _) ?_
    intro x hx hx'
    rw [List.mem_singleton] at hx'
    exact hmem (hx' ▸ hx)

theorem nodup_keys_byDay (tz : ℕ) (l : List ForecastAPIItem) :
    ((byDay tz l).map Prod.fst).Nodup := by
  rw [byDay]
  have : ∀ (m : List (ℕ × DayBucket)), (m.map Prod.fst).Nodup →
      ((l.foldl (upsertDay tz) m).map Prod.fst).Nodup := by
    induction l with
    | nil => intro m hm; simpa using hm
    | cons it rest ih =>
      intro m hm
      rw [List.foldl_cons]
      exact ih _ (nodup_keys_upsertDay tz it m hm)
  exact this [] (by simp)

theorem lookupDay_eq_some_of_mem (k : ℕ) (b : DayBucket)
    (m : List (ℕ × DayBucket)) (hn : (m.map Prod.fst).Nodup)
    (hm : (k, b) ∈ m) : lookupDay k m = some b := by
  induction m with
  | nil => simp at hm
  | cons p rest ih =>
    obtain ⟨j, b'⟩ := p
    simp only [List.map_cons, List.nodup_cons] at hn
    rcases List.mem_cons.mp hm with heq | htail
    · have hk : k = j := congrArg Prod.fst heq
      have hb : b = b' := congrArg Prod.snd heq
      simp [lookupDay, ← hk, ← hb]
    · have hj : j ≠ k := by
        intro hc
        subst hc
        exact hn.1 (List.mem_map.mpr ⟨(j, b), htail, rfl⟩)
      simp [lookupDay, hj, ih hn.2 htail]

theorem foldBucket_dt (l : List ForecastAPIItem) :
    ∀ b : DayBucket, (foldBucket b l).dt = b.dt := by
  induction l with
  | nil => intro b; rfl
  | cons x xs ih =>
    intro b
    rw [foldBucket, List.foldl_cons]
    exact ih (mergeBucket b x)

theorem foldBucket_weather (l : List ForecastAPIItem) :
    ∀ b : DayBucket, (foldBucket b l).weather = b.weather := by
  induction l with
  | nil => intro b; rfl
  | cons x xs ih =>
    intro b
    rw [foldBucket, List.foldl_cons]
    exact ih (mergeBucket b x)

theorem foldBucket_cons (b : DayBucket) (x : ForecastAPIItem)
    (xs : List ForecastAPIItem) :
    foldBucket b (x :: xs) = foldBucket (mergeBucket b x) xs := rfl

theorem foldBucket_temp_min_le (l : List ForecastAPIItem) :
    ∀ b : DayBucket, (foldBucket b l).temp_min ≤ b.temp_min ∧
      ∀ q ∈ l, (foldBucket b l).temp_min ≤ q.main.temp_min := by
  induction l with
  | nil => intro b; exact ⟨le_refl _, by simp⟩
  | cons x xs ih =>
    intro b
    rw [foldBucket_cons]
    refine ⟨le_trans (ih (mergeBucket b x)).1 (min_le_left _ _), ?_⟩
    intro q hq
    rcases List.mem_cons.mp hq with hqx | htail
    · rw [hqx]
      exact le_trans (ih (mergeBucket b x)).1 (min_le_right _ _)
    · exact (ih (mergeBucket b x)).2 q htail

theorem foldBucket_temp_max_ge (l : List ForecastAPIItem) :
    ∀ b : DayBucket, b.temp_max ≤ (foldBucket b l).temp_max ∧
      ∀ q ∈ l, q.main.temp_max ≤ (foldBucket b l).temp_max := by
  induction l with
  | nil => intro b; exact ⟨le_refl _, by simp⟩
  | cons x xs ih =>
    intro b
    rw [foldBucket_cons]
    refine ⟨le_trans (le_max_left _ _) (ih (mergeBucket b x)).1, ?_⟩
    intro q hq
    rcases List.mem_cons.mp hq with hqx | htail
    · rw [hqx]
      exact le_trans (le_max_right _ _) (ih (mergeBucket b x)).1
    · exact (ih (mergeBucket b x)).2 q htail

theorem foldBucket_temp_min_attained (l : List ForecastAPIItem) :
    ∀ b : DayBucket, (foldBucket b l).temp_min = b.temp_min ∨
      ∃ q ∈ l, (foldBucket b l).temp_min = q.main.temp_min := by
  induction l with
  | nil => intro b; exact Or.inl rfl
  | cons x xs ih =>
    intro b
    rw [foldBucket_cons]
    have hm : (mergeBucket b x).temp_min = min b.temp_min x.main.temp_min := rfl
    rcases ih (mergeBucket b x) with heq | ⟨q, hq, heq⟩
    · rcases le_total b.temp_min x.main.temp_min with hle | hle
      · exact Or.inl (by rw [heq, hm, min_eq_left hle])
      · exact Or.inr ⟨x, List.mem_cons_self x xs,
          by rw [heq, hm, min_eq_right hle]⟩
    · exact Or.inr ⟨q, List.mem_cons_of_mem x hq, heq⟩

theorem foldBucket_temp_max_attained (l : List ForecastAPIItem) :
    ∀ b : DayBucket, (foldBucket b l).temp_max = b.temp_max ∨
      ∃ q ∈ l, (foldBucket b l).temp_max = q.main.temp_max := by
  induction l with
  | nil => intro b; exact Or.inl rfl
  | cons x xs ih =>
    intro b
    rw [foldBucket_cons]
    have hm : (mergeBucket b x).temp_max = max b.temp_max x.main.temp_max := rfl
    rcases ih (mergeBucket b x) with heq | ⟨q, hq, heq⟩
    · rcases le_total x.main.temp_max b.temp_max with hle | hle
      · exact Or.inl (by rw [heq, hm, max_eq_left hle])
      · exact Or.inr ⟨x, List.mem_cons_self x xs,
          by rw [heq, hm, max_eq_right hle]⟩
    · exact Or.inr ⟨q, List.mem_cons_of_mem x hq, heq⟩

/-- The content of the bucket stored for day `k`: it is built from the first
input sample of that day (timestamp and representative condition), its
`temp_min`/`temp_max` bound every sample of the day, and both extremes are
attained by some sample of the day. -/
theorem byDay_bucket_spec (tz : ℕ) (l : List ForecastAPIItem) (k : ℕ)
    (b : DayBucket) (h : lookupDay k (byDay tz l) = some b) :
    ∃ x xs, samplesOn tz k l = x :: xs ∧ b.dt = x.dt ∧
      b.weather = x.weather.head? ∧
      (∀ q ∈ samplesOn tz k l,
        b.temp_min ≤ q.main.temp_min ∧ q.main.temp_max ≤ b.temp_max) ∧
      (∃ q ∈ samplesOn tz k l, b.temp_min = q.main.temp_min) ∧
      (∃ q ∈ samplesOn tz k l, b.temp_max = q.main.temp_max) := by
  rw [lookupDay_byDay] at h
  cases hs : samplesOn tz k l with
  | nil => rw [hs] at h; exact absurd h (by simp [extendGroup])
  | cons x xs =>
    rw [hs] at h
    have hb : b = foldBucket (initBucket x) xs := by
      simpa [extendGroup] using h.symm
    subst hb
    refine ⟨x, xs, rfl, ?_, ?_, ?_, ?_, ?_⟩
    · rw [foldBucket_dt]; rfl
    · rw [foldBucket_weather]; rfl
    · intro q hq
      rcases List.mem_cons.mp hq with hqx | htail
      · rw [hqx]
        exact ⟨(foldBucket_temp_min_le xs (initBucket x)).1,
          (foldBucket_temp_max_ge xs (initBucket x)).1⟩
      · exact ⟨(foldBucket_temp_min_le xs (initBucket x)).2 q htail,
          (foldBucket_temp_max_ge xs (initBucket x)).2 q htail⟩
    · rcases foldBucket_temp_min_attained xs (initBucket x) with heq | ⟨q, hq, heq⟩
      · exact ⟨x, List.mem_cons_self x xs, heq⟩
      · exact ⟨q, List.mem_cons_of_mem x hq, heq⟩
    · rcases foldBucket_temp_max_attained xs (initBucket x) with heq | ⟨q, hq, heq⟩
      · exact ⟨x, List.mem_cons_self x xs, heq⟩
      · exact ⟨q, List.mem_cons_of_mem x hq, heq⟩

/-- Every sample on day `k` indeed has day key `k`. -/
theorem dayKey_of_mem_samplesOn (tz k : ℕ) (l : List ForecastAPIItem)
    (it : ForecastAPIItem) (h : it ∈ samplesOn tz k l) :
    dayKey tz it.dt = k := by
  have := List.of_mem_filter h
  simpa using this

/-- Each stored pair of `byDay` has its key equal to the day of its bucket's
timestamp. -/
theorem byDay_key_eq_day (tz : ℕ) (l : List ForecastAPIItem)
    (p : ℕ × DayBucket) (hp : p ∈ byDay tz l) :
    dayKey tz p.2.dt = p.1 := by
  obtain ⟨k, b⟩ := p
  have hl : lookupDay k (byDay tz l) = some b :=
    lookupDay_eq_some_of_mem k b _ (nodup_keys_byDay tz l) hp
  obtain ⟨x, xs, hx, hdt, -, -, -, -⟩ := byDay_bucket_spec tz l k b hl
  have hxmem : x ∈ samplesOn tz k l := by rw [hx]; exact List.mem_cons_self x xs
  rw [hdt]
  exact dayKey_of_mem_samplesOn tz k l x hxmem

theorem bucketToItem_dt (b : DayBucket) : (bucketToItem b).dt = b.dt := rfl

theorem dayKey_mono (tz : ℕ) {a b : ℕ} (h : a ≤ b) :
    dayKey tz a ≤ dayKey tz b :=
  Nat.div_le_div_right (Nat.add_le_add_right h tz)

/-- A day is a key of `byDay` exactly when some input sample falls on it. -/
theorem mem_keys_byDay_iff (tz : ℕ) (l : List ForecastAPIItem) (k : ℕ) :
    k ∈ (byDay tz l).map Prod.fst ↔
      k ∈ l.map fun it => dayKey tz it.dt := by
  have hnone : lookupDay k (byDay tz l) = none ↔ samplesOn tz k l = [] := by
    rw [lookupDay_byDay]
    cases hs : samplesOn tz k l <;> simp [extendGroup]
  constructor
  · intro hk
    by_contra hmem
    have hempty : samplesOn tz k l = [] := by
      rw [samplesOn, List.filter_eq_nil_iff]
      intro it hit hbeq
      exact hmem (List.mem_map.mpr ⟨it, hit, by simpa using hbeq⟩)
    exact ((lookupDay_eq_none_iff k (byDay tz l)).mp (hnone.mpr hempty)) hk
  · intro hmem
    obtain ⟨it, hit, hd⟩ := List.mem_map.mp hmem
    by_contra hk
    have := (lookupDay_eq_none_iff k (byDay tz l)).mpr hk
    have hempty := hnone.mp this
    have : it ∈ samplesOn tz k l :=
      List.mem_filter.mpr ⟨hit, by simpa using hd⟩
    rw [hempty] at this
    simp at this

/-- Mapping each stored bucket to its calendar day recovers the key list. -/
theorem byDay_values_day_eq_keys (tz : ℕ) (l : List ForecastAPIItem) :
    ((byDay tz l).map Prod.snd).map (fun b => dayKey tz b.dt) =
      (byDay tz l).map Prod.fst := by
  rw [List.map_map]
  exact List.map_congr_left fun p hp => byDay_key_eq_day tz l p hp

/-- Sorting the buckets by timestamp and reading off their days yields the
ascending list of the distinct days of the input. -/
theorem days_of_sorted_buckets (tz : ℕ) (l : List ForecastAPIItem) :
    (List.insertionSort dtLE ((byDay tz l).map Prod.snd)).map
        (fun b => dayKey tz b.dt) =
      List.insertionSort (· ≤ ·) (l.map fun it => dayKey tz it.dt).dedup := by
  have hperm1 : ((List.insertionSort dtLE ((byDay tz l).map Prod.snd)).map
      (fun b => dayKey tz b.dt)).Perm
        (((byDay tz l).map Prod.snd).map (fun b => dayKey tz b.dt)) :=
    (List.perm_insertionSort dtLE _).map _
  have hperm2 : ((byDay tz l).map Prod.fst).Perm
      (l.map fun it => dayKey tz it.dt).dedup :=
    (List.perm_ext_iff_of_nodup (nodup_keys_byDay tz l)
      (List.nodup_dedup _)).mpr
      (fun a => by rw [List.mem_dedup]; exact mem_keys_byDay_iff tz l a)
  have hperm3 : ((l.map fun it => dayKey tz it.dt).dedup).Perm
      (List.insertionSort (· ≤ ·) (l.map fun it => dayKey tz it.dt).dedup) :=
    (List.perm_insertionSort _ _).symm
  have hperm : ((List.insertionSort dtLE ((byDay tz l).map Prod.snd)).map
      (fun b => dayKey tz b.dt)).Perm
        (List.insertionSort (· ≤ ·) (l.map fun it => dayKey tz it.dt).dedup) :=
    ((hperm1.trans (byDay_values_day_eq_keys tz l ▸ List.Perm.refl _)).trans
      hperm2).trans hperm3
  have hs1 : List.Sorted (· ≤ ·)
      ((List.insertionSort dtLE ((byDay tz l).map Prod.snd)).map
        (fun b => dayKey tz b.dt)) :=
    List.Pairwise.map _ (fun a b h => dayKey_mono tz h)
      (List.sorted_insertionSort dtLE _)
  have hs2 : List.Sorted (· ≤ ·)
      (List.insertionSort (· ≤ ·) (l.map fun it => dayKey tz it.dt).dedup) :=
    List.sorted_insertionSort _ _
  exact List.eq_of_perm_of_sorted hperm hs1 hs2

/-- The days of the compacted forecast are the first five distinct days of
the input in ascending order. -/
theorem compactForecast_days (tz : ℕ) (l : List ForecastAPIItem) :
    (compactForecast tz l).map (fun e => dayKey tz e.dt) =
      (List.insertionSort (· ≤ ·) (l.map fun it => dayKey tz it.dt).dedup).take 5 := by
  rw [compactForecast, List.map_map,
    show ((fun e : ForecastItem => dayKey tz e.dt) ∘ bucketToItem) =
      (fun b : DayBucket => dayKey tz b.dt) from rfl,
    List.map_take, days_of_sorted_buckets]

/-- Every compacted entry is the projection of the stored bucket of its own
calendar day. -/
theorem mem_compactForecast (tz : ℕ) (l : List ForecastAPIItem)
    (e : ForecastItem) (he : e ∈ compactForecast tz l) :
    ∃ b, lookupDay (dayKey tz e.dt) (byDay tz l) = some b ∧
      e = bucketToItem b := by
  rw [compactForecast] at he
  obtain ⟨b, hbmem, rfl⟩ := List.mem_map.mp he
  have hb1 : b ∈ List.insertionSort dtLE ((byDay tz l).map Prod.snd) :=
    List.take_subset _ _ hbmem
  have hb2 : b ∈ (byDay tz l).map Prod.snd :=
    (List.perm_insertionSort dtLE _).mem_iff.mp hb1
  obtain ⟨p, hp, hpb⟩ := List.mem_map.mp hb2
  have hk := byDay_key_eq_day tz l p hp
  refine ⟨b, ?_, rfl⟩
  rw [bucketToItem_dt, ← hpb, hk]
  have hmk : (p.1, p.2) ∈ byDay tz l := by
    rw [Prod.mk.eta]
    exact hp
  exact lookupDay_eq_some_of_mem p.1 p.2 _ (nodup_keys_byDay tz l) hmk

/-- The compacted list is strictly ascending in `dt`. -/
theorem compactForecast_strict_sorted (tz : ℕ) (l : List ForecastAPIItem) :
    List.Pairwise (fun a b : ForecastItem => a.dt < b.dt)
      (compactForecast tz l) := by
  have h1 : List.Pairwise dtLE
      (List.insertionSort dtLE ((byDay tz l).map Prod.snd)) :=
    List.sorted_insertionSort dtLE _
  have h2 : ((List.insertionSort dtLE ((byDay tz l).map Prod.snd)).map
      (fun b => dayKey tz b.dt)).Nodup := by
    rw [days_of_sorted_buckets]
    exact ((List.perm_insertionSort _ _).nodup_iff).mpr (List.nodup_dedup _)
  have h3 : List.Pairwise
      (fun a b : DayBucket => dayKey tz a.dt ≠ dayKey tz b.dt)
      (List.insertionSort dtLE ((byDay tz l).map Prod.snd)) :=
    List.pairwise_map.mp h2
  have h4 : List.Pairwise (fun a b : DayBucket => a.dt < b.dt)
      (List.insertionSort dtLE ((byDay tz l).map Prod.snd)) := by
    refine (h1.and h3).imp ?_
    rintro a b ⟨hle, hne⟩
    exact lt_of_le_of_ne hle fun hdteq => hne (by rw [hdteq])
  have h5 : List.Pairwise (fun a b : DayBucket => a.dt < b.dt)
      ((List.insertionSort dtLE ((byDay tz l).map Prod.snd)).take 5) :=
    h4.sublist (List.take_sublist _ _)
  rw [compactForecast]
  exact List.pairwise_map.mpr h5

/-- C1: `compactForecast` produces exactly one entry per calendar day among
the at most five earliest days represented in the input; that entry's
`temp_min` is the minimum of `temp_min` over the day's samples, its
`temp_max` the maximum of `temp_max` over them, and its condition and
description come from the first sample of the day in input order. -/
theorem compactForecast_one_entry_per_day (tz : ℕ) (l : List ForecastAPIItem) :
    (compactForecast tz l).map (fun e => dayKey tz e.dt) =
      (List.insertionSort (· ≤ ·)
        (l.map fun it => dayKey tz it.dt).dedup).take 5 ∧
    ∀ e ∈ compactForecast tz l,
      ∃ x xs, samplesOn tz (dayKey tz e.dt) l = x :: xs ∧
        e.dt = x.dt ∧
        e.main = (x.weather.head?.map WeatherCond.main).getD "" ∧
        e.desc = (x.weather.head?.map WeatherCond.description).getD "" ∧
        (∀ q ∈ samplesOn tz (dayKey tz e.dt) l,
          e.temp_min ≤ q.main.temp_min ∧ q.main.temp_max ≤ e.temp_max) ∧
        (∃ q ∈ samplesOn tz (dayKey tz e.dt) l,
          e.temp_min = q.main.temp_min) ∧
        (∃ q ∈ samplesOn tz (dayKey tz e.dt) l,
          e.temp_max = q.main.temp_max) := by
  refine ⟨compactForecast_days tz l, ?_⟩
  intro e he
  obtain ⟨b, hlk, rfl⟩ := mem_compactForecast tz l e he
  obtain ⟨x, xs, hs, hdt, hw, hbound, hattmin, hattmax⟩ :=
    byDay_bucket_spec tz l (dayKey tz (bucketToItem b).dt) b hlk
  refine ⟨x, xs, hs, ?_, ?_, ?_, hbound, hattmin, hattmax⟩
  · rw [bucketToItem_dt, hdt]
  · rw [show (bucketToItem b).main =
      (b.weather.map WeatherCond.main).getD "" from rfl, hw]
  · rw [show (bucketToItem b).desc =
      (b.weather.map WeatherCond.description).getD "" from rfl, hw]

/-- C2: the compacted forecast has at most five entries and is strictly
ascending in the `dt` timestamp. -/
theorem compactForecast_length_le_five_sorted (tz : ℕ)
    (l : List ForecastAPIItem) :
    (compactForecast tz l).length ≤ 5 ∧
    List.Sorted (fun a b : ForecastItem => a.dt < b.dt)
      (compactForecast tz l) := by
  constructor
  · rw [compactForecast, List.length_map, List.length_take]
    exact min_le_left _ _
  · exact compactForecast_strict_sorted tz l

/-- C7: if every input sample has `temp_min ≤ temp_max`, so does every
compacted entry. -/
theorem compactForecast_min_le_max (tz : ℕ) (l : List ForecastAPIItem)
    (h : ∀ it ∈ l, it.main.temp_min ≤ it.main.temp_max) :
    ∀ e ∈ compactForecast tz l, e.temp_min ≤ e.temp_max := by
  intro e he
  obtain ⟨b, hlk, rfl⟩ := mem_compactForecast tz l e he
  obtain ⟨x, xs, hs, -, -, hbound, -, -⟩ :=
    byDay_bucket_spec tz l (dayKey tz (bucketToItem b).dt) b hlk
  have hx : x ∈ samplesOn tz (dayKey tz (bucketToItem b).dt) l := by
    rw [hs]
    exact List.mem_cons_self x xs
  have hxl : x ∈ l := List.mem_of_mem_filter hx
  have h1 : b.temp_min ≤ x.main.temp_min := (hbound x hx).1
  have h2 : x.main.temp_max ≤ b.temp_max := (hbound x hx).2
  exact le_trans h1 (le_trans (h x hxl) h2)

/-- A three-sample input spanning two calendar days, used to instantiate the
universally quantified theorems. -/
def witSampleA : ForecastAPIItem :=
  ⟨100, ⟨10, 20⟩, [⟨"Clear", "cielo claro"⟩]⟩

/-- Second sample of the first day, with wider temperatures. -/
def witSampleB : ForecastAPIItem :=
  ⟨200, ⟨5, 25⟩, [⟨"Rain", "lluvia ligera"⟩]⟩

/-- Single sample of the second day, with an empty `weather` array. -/
def witSampleC : ForecastAPIItem :=
  ⟨86500, ⟨7, 18⟩, []⟩

/-- The concrete input list for the instantiations. -/
def witList : List ForecastAPIItem := [witSampleA, witSampleB, witSampleC]

/-- The compacted entry of the first day of `witList`. -/
def witEntry : ForecastItem := ⟨100, "Clear", "cielo claro", 5, 25⟩

/-- C1 at the concrete input `witList` and entry `witEntry`. -/
theorem compactForecast_one_entry_per_day_witness :
    ∃ x xs, samplesOn 0 (dayKey 0 witEntry.dt) witList = x :: xs ∧
      witEntry.dt = x.dt ∧
      witEntry.main = (x.weather.head?.map WeatherCond.main).getD "" ∧
      witEntry.desc = (x.weather.head?.map WeatherCond.description).getD "" ∧
      (∀ q ∈ samplesOn 0 (dayKey 0 witEntry.dt) witList,
        witEntry.temp_min ≤ q.main.temp_min ∧
          q.main.temp_max ≤ witEntry.temp_max) ∧
      (∃ q ∈ samplesOn 0 (dayKey 0 witEntry.dt) witList,
        witEntry.temp_min = q.main.temp_min) ∧
      (∃ q ∈ samplesOn 0 (dayKey 0 witEntry.dt) witList,
        witEntry.temp_max = q.main.temp_max) :=
  (compactForecast_one_entry_per_day 0 witList).2 witEntry (by decide)

/-- C7 at the concrete input `witList` and entry `witEntry`. -/
theorem compactForecast_min_le_max_witness :
    witEntry.temp_min ≤ witEntry.temp_max :=
  compactForecast_min_le_max 0 witList (by decide) witEntry (by decide)

/-- C3: the hourly slice is `null` exactly when fewer than two samples come
in. -/
theorem processHourlyForecast_none_iff (tz : ℕ) (l : List ForecastAPIItem) :
    processHourlyForecast tz l = none ↔ l.length < 2 := by
  rw [processHourlyForecast]
  by_cases h0 : l.length = 0
  · simp [h0]
  · by_cases h2 : l.length < 2
    · have hm : (l.take 8).length < 2 := by
        rw [List.length_take]
        omega
      simp [h0, hm, h2]
    · have hm : ¬ (l.take 8).length < 2 := by
        rw [List.length_take]
        omega
      simp [h0, hm, h2]

/-- C4: with at least two samples, the hourly result covers exactly the
first `min n 8` samples in input order: all three arrays have that length
and the `i`-th label, rounded temperature and icon are derived from the
`i`-th input sample. -/
theorem processHourlyForecast_pointwise (tz : ℕ) (l : List ForecastAPIItem)
    (h : 2 ≤ l.length) :
    ∃ hd d, processHourlyForecast tz l = some hd ∧
      hd.datasets = [d] ∧
      hd.labels.length = min l.length 8 ∧
      d.data.length = min l.length 8 ∧
      hd.icons.length = min l.length 8 ∧
      ∀ i x, l[i]? = some x → i < 8 →
        hd.labels[i]? = some (hourLabel tz x.dt) ∧
        d.data[i]? = some (jsRound x.main.temp_max) ∧
        hd.icons[i]? = some
          (getWeatherIcon (x.weather.head?.map WeatherCond.main)) := by
  have h0 : ¬ l.length = 0 := by omega
  have hm : ¬ (l.take 8).length < 2 := by
    rw [List.length_take]
    omega
  refine ⟨⟨(l.take 8).map (fun it => hourLabel tz it.dt),
      [⟨(l.take 8).map (fun it => jsRound it.main.temp_max)⟩],
      (l.take 8).map (fun it =>
        getWeatherIcon (it.weather.head?.map WeatherCond.main))⟩,
    ⟨(l.take 8).map (fun it => jsRound it.main.temp_max)⟩,
    ?_, rfl, ?_, ?_, ?_, ?_⟩
  · simp only [processHourlyForecast, if_neg h0, if_neg hm]
  · rw [List.length_map, List.length_take, Nat.min_comm]
  · rw [List.length_map, List.length_take, Nat.min_comm]
  · rw [List.length_map, List.length_take, Nat.min_comm]
  · intro i x hix hi8
    refine ⟨?_, ?_, ?_⟩ <;>
      simp [List.getElem?_map, List.getElem?_take, hi8, hix]

/-- Keys absent from an association list look up to `none`. -/
theorem lookup_eq_none_of_not_mem_keys (l : List (String × String))
    (k : String) (h : k ∉ l.map Prod.fst) : l.lookup k = none := by
  induction l with
  | nil => rfl
  | cons p rest ih =>
    obtain ⟨a, v⟩ := p
    simp only [List.map_cons, List.mem_cons] at h
    push_neg at h
    have hne : (k == a) = false := beq_eq_false_iff_ne.mpr h.1
    simp [List.lookup, hne, ih h.2]

/-- A successful lookup returns a stored pair. -/
theorem mem_of_lookup_eq_some (l : List (String × String))
    (k v : String) (h : l.lookup k = some v) : (k, v) ∈ l := by
  induction l with
  | nil => simp [List.lookup] at h
  | cons p rest ih =>
    obtain ⟨a, w⟩ := p
    rw [List.lookup] at h
    by_cases hk : (k == a) = true
    · simp only [hk] at h
      have : w = v := by simpa using h
      exact List.mem_cons.mpr (Or.inl (by rw [← this, beq_iff_eq.mp hk]))
    · have hk' : (k == a) = false := by
        cases hbeq : (k == a)
        · rfl
        · exact absurd hbeq hk
      simp only [hk'] at h
      exact List.mem_cons.mpr (Or.inr (ih h))

/-- C5: both asset maps return a defined value for every keyword: the stored
pair when the keyword is mapped, and the fixed fallback otherwise (also for
the `undefined` keyword). -/
theorem weather_asset_fallback (w : Option String) :
    (jsString w ∉ iconMap.map Prod.fst →
      getWeatherIcon w = "partly-sunny") ∧
    (jsString w ∉ imageMap.map Prod.fst →
      getWeatherImage w = defaultImageUri) ∧
    ((jsString w, getWeatherIcon w) ∈ iconMap ∨
      getWeatherIcon w = "partly-sunny") ∧
    ((jsString w, getWeatherImage w) ∈ imageMap ∨
      getWeatherImage w = defaultImageUri) ∧
    getWeatherIcon none = "partly-sunny" ∧
    getWeatherImage none = defaultImageUri := by
  refine ⟨?_, ?_, ?_, ?_, by decide, by decide⟩
  · intro h
    rw [getWeatherIcon, lookup_eq_none_of_not_mem_keys _ _ h]
    rfl
  · intro h
    rw [getWeatherImage, lookup_eq_none_of_not_mem_keys _ _ h]
    rfl
  · cases hl : iconMap.lookup (jsString w) with
    | none =>
      right
      rw [getWeatherIcon, hl]
      rfl
    | some v =>
      left
      rw [getWeatherIcon, hl]
      exact mem_of_lookup_eq_some _ _ _ hl
  · cases hl : imageMap.lookup (jsString w) with
    | none =>
      right
      rw [getWeatherImage, hl]
      rfl
    | some v =>
      left
      rw [getWeatherImage, hl]
      exact mem_of_lookup_eq_some _ _ _ hl

/-- C5 at the unmapped keyword `"Niebla"`. -/
theorem weather_asset_fallback_witness :
    getWeatherIcon (some "Niebla") = "partly-sunny" ∧
    getWeatherImage (some "Niebla") = defaultImageUri :=
  ⟨(weather_asset_fallback (some "Niebla")).1 (by decide),
   (weather_asset_fallback (some "Niebla")).2.1 (by decide)⟩

/-- C6: `displayTemp` is monotone in the temperature in every unit mode, it
is `round(t * 9/5 + 32)` in imperial mode and `round(t)` in metric mode. -/
theorem displayTemp_monotone (units : String) (t1 t2 : ℚ) (h : t1 ≤ t2) :
    displayTemp units t1 ≤ displayTemp units t2 ∧
    displayTemp "imperial" t1 = jsRound (t1 * 9 / 5 + 32) ∧
    displayTemp "metric" t1 = jsRound t1 := by
  refine ⟨?_, by simp [displayTemp], by simp [displayTemp]⟩
  rw [displayTemp, displayTemp]
  by_cases hu : units = "imperial"
  · rw [if_pos hu, if_pos hu, jsRound, jsRound]
    exact Int.floor_le_floor (by linarith)
  · rw [if_neg hu, if_neg hu, jsRound, jsRound]
    exact Int.floor_le_floor (by linarith)

/-- C6 at concrete temperatures 1 ℃ and 2 ℃ in imperial mode. -/
theorem displayTemp_monotone_witness :
    displayTemp "imperial" 1 ≤ displayTemp "imperial" 2 ∧
    displayTemp "imperial" 1 = jsRound (1 * 9 / 5 + 32) ∧
    displayTemp "metric" 1 = jsRound 1 :=
  displayTemp_monotone "imperial" 1 2 (by decide)

/-- C4 at the concrete three-sample input `witList`. -/
theorem processHourlyForecast_pointwise_witness :
    ∃ hd d, processHourlyForecast 0 witList = some hd ∧
      hd.datasets = [d] ∧
      hd.labels.length = min witList.length 8 ∧
      d.data.length = min witList.length 8 ∧
      hd.icons.length = min witList.length 8 ∧
      ∀ i x, witList[i]? = some x → i < 8 →
        hd.labels[i]? = some (hourLabel 0 x.dt) ∧
        d.data[i]? = some (jsRound x.main.temp_max) ∧
        hd.icons[i]? = some
          (getWeatherIcon (x.weather.head?.map WeatherCond.main)) :=
  processHourlyForecast_pointwise 0 witList (by decide)

/-- The effect trace of `fetchAll` is empty (missing key) or exactly the two
parallel fetches. -/
theorem fetchAll_snd (tz : ℕ) (env : Env) (c : Coords) (s : AppState) :
    (fetchAll tz env c s).2 = [] ∨
    (fetchAll tz env c s).2 =
      [Effect.fetchCurrentByCoords c.lat c.lon "metric",
       Effect.fetchForecast c.lat c.lon "metric"] := by
  rw [fetchAll]
  by_cases hk : env.apiKey = false
  · rw [if_pos hk]
    exact Or.inl rfl
  · rw [if_neg hk]
    rcases env.currentRes with _ | ⟨cok, cData⟩ <;>
      rcases env.forecastRes with _ | ⟨fok, fData⟩ <;> right
    · rfl
    · rfl
    · rfl
    · cases cok <;> cases fok <;> rfl

/-- Any failing answer of the two fetches makes `fetchAll` store its single
error message. -/
theorem fetchAll_failure_error (tz : ℕ) (env : Env) (c : Coords)
    (s : AppState) (hk : env.apiKey = true)
    (hfail : env.currentRes = FetchResult.netErr ∨
      (∃ d, env.currentRes = FetchResult.resp false d) ∨
      env.forecastRes = FetchResult.netErr ∨
      (∃ fd, env.forecastRes = FetchResult.resp false fd)) :
    (fetchAll tz env c s).1.error = some msgFetchAll := by
  obtain ⟨apiKey, perm, pos, currentRes, forecastRes⟩ := env
  simp only at hk
  subst hk
  rcases currentRes with _ | ⟨cok, cData⟩ <;>
    rcases forecastRes with _ | ⟨fok, fData⟩
  · simp [fetchAll]
  · simp [fetchAll]
  · simp [fetchAll]
  · simp only at hfail
    rcases hfail with h | ⟨d, h⟩ | h | ⟨fd, h⟩
    · exact absurd h (by simp)
    · have hcok : cok = false := by
        injection h with h1 h2
      subst hcok
      simp [fetchAll]
    · exact absurd h (by simp)
    · have hfok : fok = false := by
        injection h with h1 h2
      subst hfok
      cases cok <;> simp [fetchAll]

/-- Permission denial: the single error screen with the retry button. -/
theorem initByGeolocation_perm_denied (tz : ℕ) (env : Env) (s : AppState)
    (hp : env.permissionGranted = false) :
    ErrorOutcome (initByGeolocation tz env s) := by
  refine ⟨msgPermission, ?_, ?_, ?_, ?_⟩ <;>
    simp [initByGeolocation, hp, render]

/-- Unavailable device position: the single error screen with retry. -/
theorem initByGeolocation_no_position (tz : ℕ) (env : Env) (s : AppState)
    (hp : env.permissionGranted = true) (hpos : env.position = none) :
    ErrorOutcome (initByGeolocation tz env s) := by
  refine ⟨msgLocation, ?_, ?_, ?_, ?_⟩ <;>
    simp [initByGeolocation, hp, hpos, render]

/-- Missing API credential: the single error screen with retry. -/
theorem initByGeolocation_missing_key (tz : ℕ) (env : Env) (s : AppState)
    (c : Coords) (hp : env.permissionGranted = true)
    (hpos : env.position = some c) (hk : env.apiKey = false) :
    ErrorOutcome (initByGeolocation tz env s) := by
  refine ⟨msgMissingKey, ?_, ?_, ?_, ?_⟩ <;>
    simp [initByGeolocation, fetchAll, hp, hpos, hk, render]

/-- Failing fetches in the geolocation path: the single error screen with
retry and no repeated external action. -/
theorem initByGeolocation_fetch_failure (tz : ℕ) (env : Env) (s : AppState)
    (c : Coords) (hp : env.permissionGranted = true)
    (hpos : env.position = some c) (hk : env.apiKey = true)
    (hfail : env.currentRes = FetchResult.netErr ∨
      (∃ d, env.currentRes = FetchResult.resp false d) ∨
      env.forecastRes = FetchResult.netErr ∨
      (∃ fd, env.forecastRes = FetchResult.resp false fd)) :
    ErrorOutcome (initByGeolocation tz env s) := by
  have hnodup : ∀ s' : AppState,
      (Effect.requestPermission :: Effect.getCurrentPosition ::
        (fetchAll tz env c s').2).Nodup := by
    intro s'
    rcases fetchAll_snd tz env c s' with h | h <;> rw [h] <;> simp
  have h1 : (initByGeolocation tz env s).1.error = some msgFetchAll := by
    simp only [initByGeolocation, hpos, hp]
    simp only [Bool.true_eq_false, if_false]
    exact fetchAll_failure_error tz env c _ hk hfail
  have h2 : (initByGeolocation tz env s).1.loading = false := by
    simp [initByGeolocation, hp, hpos]
  refine ⟨msgFetchAll, h1, h2, ?_, ?_⟩
  · simp [render, h1, h2]
  · simp only [initByGeolocation, hpos, hp]
    simp only [Bool.true_eq_false, if_false]
    exact hnodup _

/-- Failing fetches in the city-search path: the single error screen with
retry and no repeated external action. -/
theorem searchByCity_failure (tz : ℕ) (env : Env) (s : AppState)
    (hq : ¬ jsTrim s.query = "")
    (hfail : env.currentRes = FetchResult.netErr ∨
      (∃ d, env.currentRes = FetchResult.resp false d) ∨
      env.forecastRes = FetchResult.netErr ∨
      (∃ fd, env.forecastRes = FetchResult.resp false fd)) :
    ErrorOutcome (searchByCity tz env s) := by
  obtain ⟨apiKey, perm, pos, currentRes, forecastRes⟩ := env
  simp only at hfail
  refine ⟨msgCity, ?_⟩
  rcases hfail with h | ⟨d, h⟩ | h | ⟨fd, h⟩
  · subst h
    simp [searchByCity, hq, render]
  · subst h
    simp [searchByCity, hq, render]
  · subst h
    rcases currentRes with _ | ⟨cok, cData⟩
    · simp [searchByCity, hq, render]
    · cases cok <;> simp [searchByCity, hq, render]
  · subst h
    rcases currentRes with _ | ⟨cok, cData⟩
    · simp [searchByCity, hq, render]
    · cases cok <;> simp [searchByCity, hq, render]

/-- C8: every failure path — permission denial, unavailable location,
missing API credential, network failure, non-success API response, in both
the geolocation and the city-search flow — ends in a single stored error
message rendered as the one error screen with a retry button, and no
external action is attempted twice (no automatic retry). -/
theorem failure_paths_single_error (tz : ℕ) (env : Env) (s : AppState)
    (c : Coords) :
    (env.permissionGranted = false →
      ErrorOutcome (initByGeolocation tz env s)) ∧
    (env.permissionGranted = true → env.position = none →
      ErrorOutcome (initByGeolocation tz env s)) ∧
    (env.permissionGranted = true → env.position = some c →
      env.apiKey = false → ErrorOutcome (initByGeolocation tz env s)) ∧
    (env.permissionGranted = true → env.position = some c →
      env.apiKey = true →
      (env.currentRes = FetchResult.netErr ∨
        (∃ d, env.currentRes = FetchResult.resp false d) ∨
        env.forecastRes = FetchResult.netErr ∨
        (∃ fd, env.forecastRes = FetchResult.resp false fd)) →
      ErrorOutcome (initByGeolocation tz env s)) ∧
    (¬ jsTrim s.query = "" →
      (env.currentRes = FetchResult.netErr ∨
        (∃ d, env.currentRes = FetchResult.resp false d) ∨
        env.forecastRes = FetchResult.netErr ∨
        (∃ fd, env.forecastRes = FetchResult.resp false fd)) →
      ErrorOutcome (searchByCity tz env s)) :=
  ⟨fun hp => initByGeolocation_perm_denied tz env s hp,
   fun hp hpos => initByGeolocation_no_position tz env s hp hpos,
   fun hp hpos hk => initByGeolocation_missing_key tz env s c hp hpos hk,
   fun hp hpos hk hfail =>
     initByGeolocation_fetch_failure tz env s c hp hpos hk hfail,
   fun hq hfail => searchByCity_failure tz env s hq hfail⟩

/-- A blank-query state for the concrete instantiations. -/
def witStateBlank : AppState :=
  { loading := false, refreshing := false, error := none, theme := "light",
    units := "metric", query := "   ", coords := none, cityLabel := "",
    current := none, forecast := [], hourlyForecast := none }

/-- An environment whose permission request is denied. -/
def witEnvDenied : Env :=
  ⟨true, false, none, FetchResult.netErr, FetchResult.netErr⟩

/-- C8 at a concrete denied-permission run. -/
theorem failure_paths_single_error_witness :
    ErrorOutcome (initByGeolocation 0 witEnvDenied witStateBlank) :=
  (failure_paths_single_error 0 witEnvDenied witStateBlank ⟨1, 2⟩).1 (by decide)

/-- Every fetch effect of `fetchAll` carries `units=metric`. -/
theorem fetchAll_fetch_metric (tz : ℕ) (env : Env) (c : Coords)
    (s : AppState) :
    ∀ e ∈ (fetchAll tz env c s).2,
      e.isFetch = true → e.unitsOf = some "metric" := by
  intro e he hf
  rcases fetchAll_snd tz env c s with h | h <;> rw [h] at he
  · simp at he
  · simp at he
    rcases he with rfl | rfl <;> rfl

/-- Every fetch effect of `initByGeolocation` carries `units=metric`. -/
theorem initByGeolocation_fetch_metric (tz : ℕ) (env : Env) (s : AppState) :
    ∀ e ∈ (initByGeolocation tz env s).2,
      e.isFetch = true → e.unitsOf = some "metric" := by
  intro e he hf
  rw [initByGeolocation] at he
  by_cases hp : env.permissionGranted = false
  · rw [if_pos hp] at he
    simp at he
    subst he
    simp [Effect.isFetch] at hf
  · rw [if_neg hp] at he
    cases hpos : env.position with
    | none =>
      rw [hpos] at he
      simp at he
      rcases he with rfl | rfl <;> simp [Effect.isFetch] at hf
    | some c =>
      rw [hpos] at he
      simp at he
      rcases he with rfl | rfl | hmem
      · simp [Effect.isFetch] at hf
      · simp [Effect.isFetch] at hf
      · exact fetchAll_fetch_metric tz env c _ e hmem hf

/-- Every fetch effect of `searchByCity` carries `units=metric`. -/
theorem searchByCity_fetch_metric (tz : ℕ) (env : Env) (s : AppState) :
    ∀ e ∈ (searchByCity tz env s).2,
      e.isFetch = true → e.unitsOf = some "metric" := by
  obtain ⟨apiKey, perm, pos, currentRes, forecastRes⟩ := env
  intro e he hf
  by_cases hq : jsTrim s.query = ""
  · simp [searchByCity, hq] at he
  · rcases currentRes with _ | ⟨cok, cData⟩
    · simp [searchByCity, hq] at he
      rcases he with rfl | rfl
      · simp [Effect.isFetch] at hf
      · rfl
    · cases cok
      · simp [searchByCity, hq] at he
        rcases he with rfl | rfl
        · simp [Effect.isFetch] at hf
        · rfl
      · rcases forecastRes with _ | ⟨fok, fData⟩
        · simp [searchByCity, hq] at he
          rcases he with rfl | rfl | rfl
          · simp [Effect.isFetch] at hf
          · rfl
          · rfl
        · cases fok <;>
          · simp [searchByCity, hq] at he
            rcases he with rfl | rfl | rfl
            · simp [Effect.isFetch] at hf
            · rfl
            · rfl

/-- C9: unit conversion is display-only: every fetch of every handler
requests `units=metric`, and toggling units emits no effect and changes
only the `units` cell — the stored coordinates, city label, current
conditions, forecast and hourly series are untouched. -/
theorem units_display_only (tz : ℕ) (env : Env) (c : Coords)
    (s : AppState) :
    (∀ e ∈ (fetchAll tz env c s).2,
      e.isFetch = true → e.unitsOf = some "metric") ∧
    (∀ e ∈ (initByGeolocation tz env s).2,
      e.isFetch = true → e.unitsOf = some "metric") ∧
    (∀ e ∈ (searchByCity tz env s).2,
      e.isFetch = true → e.unitsOf = some "metric") ∧
    (toggleUnits s).2 = [] ∧
    (toggleUnits s).1.current = s.current ∧
    (toggleUnits s).1.forecast = s.forecast ∧
    (toggleUnits s).1.hourlyForecast = s.hourlyForecast ∧
    (toggleUnits s).1.coords = s.coords ∧
    (toggleUnits s).1.cityLabel = s.cityLabel ∧
    (toggleUnits s).1.units =
      (if s.units = "metric" then "imperial" else "metric") :=
  ⟨fetchAll_fetch_metric tz env c s,
   initByGeolocation_fetch_metric tz env s,
   searchByCity_fetch_metric tz env s,
   rfl, rfl, rfl, rfl, rfl, rfl, rfl⟩

/-- An environment with a granted permission and failing fetches. -/
def witEnvOk : Env :=
  ⟨true, true, some ⟨1, 2⟩, FetchResult.netErr, FetchResult.netErr⟩

/-- C9 at a concrete fetch effect of a concrete `fetchAll` run. -/
theorem units_display_only_witness :
    Effect.unitsOf (Effect.fetchCurrentByCoords 1 2 "metric") =
      some "metric" :=
  (units_display_only 0 witEnvOk ⟨1, 2⟩ witStateBlank).1
    (Effect.fetchCurrentByCoords 1 2 "metric") (by decide) (by decide)

/-- A blank or whitespace-only query trims to the empty string. -/
theorem jsTrim_eq_empty (s : String)
    (h : ∀ c ∈ s.data, c.isWhitespace) : jsTrim s = "" := by
  rw [jsTrim, jsTrimList]
  have h1 : s.data.dropWhile Char.isWhitespace = [] :=
    List.dropWhile_eq_nil_iff.mpr fun c hc => h c hc
  rw [h1]
  rfl

/-- C10: on an empty or whitespace-only query, `searchByCity` returns at
once: no effect is performed and the state is returned unchanged. -/
theorem searchByCity_blank_noop (tz : ℕ) (env : Env) (s : AppState)
    (h : ∀ c ∈ s.query.data, c.isWhitespace) :
    searchByCity tz env s = (s, []) := by
  rw [searchByCity, if_pos (jsTrim_eq_empty s.query h)]

/-- C10 at the concrete whitespace query `"   "`. -/
theorem searchByCity_blank_noop_witness :
    searchByCity 0 witEnvOk witStateBlank = (witStateBlank, []) :=
  searchByCity_blank_noop 0 witEnvOk witStateBlank (by decide)
